import Mathlib

/-!
Verification of the gophertunnel Bedrock wire codec.

This file gives a shallow embedding of the structural wire codec of the
repository (minecraft/protocol: item stacks, entity links, enchantment
options, serialised skins) and settles the frozen claims about it.

Conventions of the embedding:
  * wire bytes are `List Nat`, each element a byte value;
  * Go machine integers are `Int` (signed) or `Nat` (unsigned) with explicit
    wrapping by `% 2 ^ w` at the places the Go code converts or overflows;
  * every reader takes the cursor (the remaining bytes) and returns the
    result together with the advanced cursor, mirroring reads from a
    bytes.Buffer; writers return the emitted bytes;
  * Go strings and byte slices are byte lists (the codec never validates
    encodings, and the spec compares them by content);
  * the primitive codec (varints, strings, fixed-width reads) and the NBT
    codec are not part of the given sources; they are modelled from the
    spec, as marked on each definition.
-/

/-- Error taxonomy of the codec, from spec section 4.5: cursor exhaustion,
malformed bytes (with the call-site message the Go code formats), a length
prefix over a declared ceiling, a negative signed length, and a failed
cross-field invariant. -/
inductive Err where
  | eof : Err
  | overflow : Err
  | malformed : String → Err
  | limitHit : Nat → String → Err
  | negativeCount : String → Err
  | invariantFault : String → Err
  deriving DecidableEq

/-- Wire bytes: a list of byte values. -/
abbrev Bytes := List Nat

/-- A reader over a byte cursor: returns the result (or the error) and the
cursor advanced past every byte the read consumed. -/
abbrev Rd (α : Type) := Bytes → Except Err α × Bytes

/-- Keep the value of a successful read, or the previous value of the
destination on error: Go readers assign through a pointer only on success. -/
def resD : Except Err α → α → α
  | .ok a, _ => a
  | .error _, d => d

/-- First error of a chain, as Go chainErr keeps the first non-nil error
after evaluating every argument. -/
def errJoin : Except Err Unit → Except Err α → Except Err Unit
  | .error e, _ => .error e
  | .ok _, .ok _ => .ok ()
  | .ok _, .error e => .error e

/-- Apply a function to the result of a reader. -/
def rdMap (f : α → β) (r : Rd α) : Rd β := fun s =>
  match r s with
  | (.ok a, s') => (.ok (f a), s')
  | (.error e, s') => (.error e, s')

/-- Sequence two reads with an early return: run the first, and on success
continue with its value and the advanced cursor — the Go pattern of a read
followed by an error check that returns the error at once. -/
def rbind (m : Rd α) (f : α → Rd β) : Rd β := fun s =>
  match m s with
  | (.ok a, s') => f a s'
  | (.error e, s') => (.error e, s')

/-- A reader that reads nothing and returns a value. -/
def pureR (a : α) : Rd α := fun s => (.ok a, s)

/-- Modelled from the spec: reading one byte from the cursor; exhaustion is
EOF. The ReadByte primitive is not under the given sources. -/
def readByte : Rd Nat
  | [] => (.error .eof, [])
  | b :: t => (.ok b, t)

/-- Modelled from the spec: reading exactly n raw bytes; a short cursor is a
fatal EOF after consuming what was available, as io.ReadFull does. -/
def readN : Nat → Rd Bytes
  | 0, s => (.ok [], s)
  | _ + 1, [] => (.error .eof, [])
  | n + 1, b :: t =>
    match readN n t with
    | (.ok l, s) => (.ok (b :: l), s)
    | (.error e, s) => (.error e, s)

/-- Value of a little-endian byte sequence. -/
def leVal : Bytes → Nat
  | [] => 0
  | b :: t => b + 256 * leVal t

/-- The low w bytes of a value, little-endian (the layout binary.Write uses
for fixed-width integers). -/
def leBytes : Nat → Nat → Bytes
  | 0, _ => []
  | w + 1, n => n % 256 :: leBytes w (n / 256)

/-- Two's-complement reading of a w-bit unsigned value. -/
def sintOf (w : Nat) (v : Nat) : Int :=
  if v < 2 ^ (w - 1) then (v : Int) else (v : Int) - 2 ^ w

/-- Wrap an integer to the int16 range, as a Go int16 conversion does. -/
def toInt16 (x : Int) : Int := (x + 2 ^ 15) % 2 ^ 16 - 2 ^ 15

/-- Wrap an integer to the int32 range, as a Go int32 conversion does. -/
def toInt32 (x : Int) : Int := (x + 2 ^ 31) % 2 ^ 32 - 2 ^ 31

/-- The 32 two's-complement bits of an int32 value, as a natural number. -/
def bits32 (x : Int) : Nat := (x % 2 ^ 32).toNat

/-- Read 32 two's-complement bits back as an int32 value. -/
def ofBits32 (n : Nat) : Int := if n < 2 ^ 31 then (n : Int) else (n : Int) - 2 ^ 32

/-- Modelled from the spec: binary.Read of a little-endian uint32. -/
def readU32 : Rd Nat := rdMap leVal (readN 4)

/-- Modelled from the spec: binary.Read of a little-endian uint16. -/
def readU16 : Rd Nat := rdMap leVal (readN 2)

/-- Modelled from the spec: binary.Read of a little-endian int16. -/
def readI16 : Rd Int := rdMap (fun v => sintOf 16 (leVal v)) (readN 2)

/-- Modelled from the spec: binary.Read of a little-endian int32. -/
def readI32 : Rd Int := rdMap (fun v => sintOf 32 (leVal v)) (readN 4)

/-- Modelled from the spec: binary.Read of a little-endian int64. -/
def readI64 : Rd Int := rdMap (fun v => sintOf 64 (leVal v)) (readN 8)

/-- Modelled from the spec: a boolean is one byte, zero false and nonzero
true. -/
def readBool : Rd Bool := rdMap (fun b => b != 0) readByte

/-- Modelled from the spec, section 4.1: LEB128 accumulation. Reads bytes
until one has its high bit clear, adding the low 7 bits of the i-th byte
shifted by 7*i (the shift is written as a product with 2 ^ shift); the
result is truncated to w bits as the Go accumulator is. A sequence of
ceil(w/7) bytes all carrying the continuation bit is a fatal OVERFLOW; the
fuel argument counts the bytes still allowed. -/
def varuintRead (w : Nat) : Nat → Nat → Nat → Rd Nat
  | 0, _, _, s => (.error .overflow, s)
  | _ + 1, _, _, [] => (.error .eof, [])
  | fuel + 1, shift, acc, b :: t =>
    if b &&& 0x80 = 0 then (.ok ((acc + (b &&& 0x7f) * 2 ^ shift) % 2 ^ w), t)
    else varuintRead w fuel (shift + 7) (acc + (b &&& 0x7f) * 2 ^ shift) t

/-- Modelled from the spec: the 32-bit unsigned varint reader. -/
def Varuint32 : Rd Nat := varuintRead 32 5 0 0

/-- Modelled from the spec: the 64-bit unsigned varint reader. -/
def Varuint64 : Rd Nat := varuintRead 64 10 0 0

/-- Zig-zag decoding of an unsigned magnitude, as the signed varint readers
apply after the LEB128 loop. -/
def unzigzag (v : Nat) : Int :=
  if v % 2 = 1 then -((v / 2 : Nat) : Int) - 1 else ((v / 2 : Nat) : Int)

/-- Modelled from the spec: the 32-bit signed (zig-zag) varint reader. -/
def Varint32 : Rd Int := rdMap unzigzag Varuint32

/-- Modelled from the spec: the 64-bit signed (zig-zag) varint reader. -/
def Varint64 : Rd Int := rdMap unzigzag Varuint64

/-- Minimal LEB128 encoding of an unsigned value, with fuel bounding the
byte count (5 for 32-bit, 10 for 64-bit inputs). -/
def ulebF : Nat → Nat → Bytes
  | 0, _ => []
  | fuel + 1, n => if n < 128 then [n] else (n % 128 + 128) :: ulebF fuel (n / 128)

/-- Zig-zag encoding of a signed value: (n shl 1) xor (n shr k-1), which is
2n for nonnegative n and -2n-1 for negative n. -/
def zigzag (x : Int) : Nat := if 0 ≤ x then (2 * x).toNat else (-2 * x - 1).toNat

/-- Modelled from the spec: the 32-bit unsigned varint writer (minimal
LEB128 of the 32-bit value). -/
def WriteVaruint32 (n : Nat) : Bytes := ulebF 5 (n % 2 ^ 32)

/-- Modelled from the spec: the 64-bit unsigned varint writer. -/
def WriteVaruint64 (n : Nat) : Bytes := ulebF 10 (n % 2 ^ 64)

/-- Modelled from the spec: the 32-bit signed varint writer (zig-zag, then
minimal LEB128). -/
def WriteVarint32 (x : Int) : Bytes := ulebF 5 (zigzag x % 2 ^ 32)

/-- Modelled from the spec: the 64-bit signed varint writer. -/
def WriteVarint64 (x : Int) : Bytes := ulebF 10 (zigzag x % 2 ^ 64)

/-- Modelled from the spec: a string is a varuint byte count followed by the
raw bytes, read with no encoding validation. The Go name of this reader is
String, which collides with the Lean core type. -/
def String' : Rd Bytes := fun s =>
  match Varuint32 s with
  | (.ok n, s') => readN n s'
  | (.error e, s') => (.error e, s')

/-- Modelled from the spec: byte slices use framing identical to strings.
The Go name ByteSlice collides with a Batteries declaration. -/
def ByteSlice' : Rd Bytes := fun s =>
  match Varuint32 s with
  | (.ok n, s') => readN n s'
  | (.error e, s') => (.error e, s')

/-- Modelled from the spec: the string writer (varuint length, then the
bytes, with the length truncated to uint32 as Go converts it). -/
def WriteString (x : Bytes) : Bytes := WriteVaruint32 x.length ++ x

/-- Modelled from the spec: the byte-slice writer. -/
def WriteByteSlice (x : Bytes) : Bytes := WriteVaruint32 x.length ++ x

/-- Modelled from the spec: binary.Write of a little-endian uint32. -/
def WriteU32 (n : Nat) : Bytes := leBytes 4 n

/-- Modelled from the spec: binary.Write of a little-endian int16 (two's
complement). -/
def WriteI16 (x : Int) : Bytes := leBytes 2 (x % 2 ^ 16).toNat

/-- Modelled from the spec: binary.Write of a little-endian int32. -/
def WriteI32 (x : Int) : Bytes := leBytes 4 (x % 2 ^ 32).toNat

/-- Modelled from the spec: a boolean is one byte, 1 for true and 0 for
false. -/
def WriteBool (b : Bool) : Bytes := [if b then 1 else 0]

/-- Read count values with a reader, stopping at the first error, as the Go
decode loops do with their early returns. -/
def readLoop (f : Rd α) : Nat → Rd (List α)
  | 0 => fun s => (.ok [], s)
  | n + 1 => fun s =>
    match f s with
    | (.error e, s') => (.error e, s')
    | (.ok a, s') =>
      match readLoop f n s' with
      | (.ok l, s'') => (.ok (a :: l), s'')
      | (.error e, s'') => (.error e, s'')

/-- Modelled from the spec, section 4.5: the two collection ceilings; the
constants' defining file is not under the given sources. LOWER_LIMIT is 512. -/
def lowerLimit : Nat := 512

/-- Modelled from the spec, section 4.5: HIGHER_LIMIT is 64 * 1024. -/
def higherLimit : Nat := 65536

/-- Modelled from the spec, section 3: the NBT value model, a tagged sum
with tag identifiers 0..12. Float and Double payloads are carried as their
raw IEEE-754 bit patterns (the codec transports them opaquely); a compound
is its entries in insertion order. -/
inductive NbtTag where
  | byteTag : Int → NbtTag
  | shortTag : Int → NbtTag
  | intTag : Int → NbtTag
  | longTag : Int → NbtTag
  | floatTag : Nat → NbtTag
  | doubleTag : Nat → NbtTag
  | byteArrayTag : Bytes → NbtTag
  | stringTag : Bytes → NbtTag
  | listTag : Nat → List NbtTag → NbtTag
  | compoundTag : List (Bytes × NbtTag) → NbtTag
  | intArrayTag : List Int → NbtTag
  | longArrayTag : List Int → NbtTag

/-- Modelled from the spec, section 4.4: an NBT string in the little-endian
fixed-width variant is a u16 little-endian byte count and the raw bytes. -/
def readNbtString : Rd Bytes := fun s =>
  match readU16 s with
  | (.ok n, s') => readN n s'
  | (.error e, s') => (.error e, s')

/-- Modelled from the spec, section 4.4: the entries of a compound, a
sequence of (tag byte, name, payload) terminated by a lone End tag. The
fuel bounds the number of entries; every entry consumes at least its tag
byte, so cursor length + 1 is always enough. -/
def readCompoundEntries (payload : Nat → Rd NbtTag) : Nat → Rd (List (Bytes × NbtTag))
  | 0 => fun s => (.error (.malformed "nbt compound"), s)
  | fuel + 1 => fun s =>
    match readByte s with
    | (.error e, s') => (.error e, s')
    | (.ok 0, s') => (.ok [], s')
    | (.ok tag, s') =>
      match readNbtString s' with
      | (.error e, s2) => (.error e, s2)
      | (.ok name, s2) =>
        match payload tag s2 with
        | (.error e, s3) => (.error e, s3)
        | (.ok v, s3) =>
          match readCompoundEntries payload fuel s3 with
          | (.ok l, s4) => (.ok ((name, v) :: l), s4)
          | (.error e, s4) => (.error e, s4)

/-- Modelled from the spec, section 4.4: payload reader for one tag in the
little-endian fixed-width variant. The fuel is the remaining nesting depth
(the guard defaults to 512); an unknown tag, a negative list or array
length, and an exhausted depth are fatal. -/
def readNbtPayload : Nat → Nat → Rd NbtTag
  | 0, _ => fun s => (.error (.malformed "nbt depth"), s)
  | fuel + 1, tag => fun s =>
    if tag = 1 then rdMap (fun v => NbtTag.byteTag (sintOf 8 v)) readByte s
    else if tag = 2 then rdMap (fun v => NbtTag.shortTag (sintOf 16 (leVal v))) (readN 2) s
    else if tag = 3 then rdMap (fun v => NbtTag.intTag (sintOf 32 (leVal v))) (readN 4) s
    else if tag = 4 then rdMap (fun v => NbtTag.longTag (sintOf 64 (leVal v))) (readN 8) s
    else if tag = 5 then rdMap (fun v => NbtTag.floatTag (leVal v)) (readN 4) s
    else if tag = 6 then rdMap (fun v => NbtTag.doubleTag (leVal v)) (readN 8) s
    else if tag = 7 then
      match readI32 s with
      | (.error e, s') => (.error e, s')
      | (.ok len, s') =>
        if len < 0 then (.error (.negativeCount "nbt byte array"), s')
        else rdMap NbtTag.byteArrayTag (readN len.toNat) s'
    else if tag = 8 then rdMap NbtTag.stringTag readNbtString s
    else if tag = 9 then
      match readByte s with
      | (.error e, s') => (.error e, s')
      | (.ok kind, s') =>
        match readI32 s' with
        | (.error e, s2) => (.error e, s2)
        | (.ok len, s2) =>
          if len < 0 then (.error (.negativeCount "nbt list"), s2)
          else rdMap (NbtTag.listTag kind) (readLoop (readNbtPayload fuel kind) len.toNat) s2
    else if tag = 10 then
      rdMap NbtTag.compoundTag (readCompoundEntries (readNbtPayload fuel) (s.length + 1)) s
    else if tag = 11 then
      match readI32 s with
      | (.error e, s') => (.error e, s')
      | (.ok len, s') =>
        if len < 0 then (.error (.negativeCount "nbt int array"), s')
        else rdMap NbtTag.intArrayTag (readLoop readI32 len.toNat) s'
    else if tag = 12 then
      match readI32 s with
      | (.error e, s') => (.error e, s')
      | (.ok len, s') =>
        if len < 0 then (.error (.negativeCount "nbt long array"), s')
        else rdMap NbtTag.longArrayTag (readLoop readI64 len.toNat) s'
    else (.error (.malformed "unknown nbt tag"), s)

/-- Modelled from the spec: decoding one little-endian NBT value into an
untyped compound holder, as the item decoder does: the root must be a
compound (tag 10); its name is read and dropped and its entries become the
map content, in insertion order. -/
def readNbtRoot : Rd (List (Bytes × NbtTag)) := fun s =>
  match readByte s with
  | (.error e, s') => (.error e, s')
  | (.ok 10, s') =>
    match readNbtString s' with
    | (.error e, s2) => (.error e, s2)
    | (.ok _, s2) => readCompoundEntries (readNbtPayload 511) (s2.length + 1) s2
  | (.ok _, s') => (.error (.malformed "nbt root not a compound"), s')

/-- Tag identifier of an NBT value, 1..12. -/
def nbtTagId : NbtTag → Nat
  | .byteTag _ => 1
  | .shortTag _ => 2
  | .intTag _ => 3
  | .longTag _ => 4
  | .floatTag _ => 5
  | .doubleTag _ => 6
  | .byteArrayTag _ => 7
  | .stringTag _ => 8
  | .listTag _ _ => 9
  | .compoundTag _ => 10
  | .intArrayTag _ => 11
  | .longArrayTag _ => 12

/-- Modelled from the spec: an NBT string writer for the little-endian
variant (u16 little-endian byte count, then the bytes). -/
def writeNbtString (x : Bytes) : Bytes := leBytes 2 x.length ++ x

/-- Modelled from the spec, section 4.4: payload writer for the
little-endian fixed-width variant, mirroring the reader; a compound emits
its entries in insertion order followed by a single End byte. The fuel is
the nesting depth cap (512). -/
def writeNbtPayload : Nat → NbtTag → Bytes
  | 0, _ => []
  | fuel + 1, t =>
    match t with
    | .byteTag v => leBytes 1 (v % 2 ^ 8).toNat
    | .shortTag v => leBytes 2 (v % 2 ^ 16).toNat
    | .intTag v => leBytes 4 (v % 2 ^ 32).toNat
    | .longTag v => leBytes 8 (v % 2 ^ 64).toNat
    | .floatTag v => leBytes 4 v
    | .doubleTag v => leBytes 8 v
    | .byteArrayTag bs => leBytes 4 bs.length ++ bs
    | .stringTag x => writeNbtString x
    | .listTag kind elems =>
      kind % 256 :: (leBytes 4 elems.length ++ (elems.map (writeNbtPayload fuel)).flatten)
    | .compoundTag entries =>
      (entries.map (fun e => nbtTagId e.2 :: (writeNbtString e.1 ++ writeNbtPayload fuel e.2))).flatten
        ++ [0]
    | .intArrayTag vs => leBytes 4 vs.length ++ (vs.map (fun v => leBytes 4 (v % 2 ^ 32).toNat)).flatten
    | .longArrayTag vs => leBytes 8 vs.length ++ (vs.map (fun v => leBytes 8 (v % 2 ^ 64).toNat)).flatten

/-- Modelled from the spec: nbt.Marshal of an untyped compound holder in the
little-endian variant: tag 10, an empty root name, the entries, an End
byte. -/
def nbtMarshal (entries : List (Bytes × NbtTag)) : Bytes :=
  10 :: (writeNbtString [] ++ writeNbtPayload 512 (.compoundTag entries))

/-- EntityLink (entity_link.go): a link between two entities. The Go field
Type is renamed Type' (Type is a Lean keyword); it is a byte. -/
structure EntityLink where
  RiddenEntityUniqueID : Int
  RiderEntityUniqueID : Int
  Type' : Nat
  Immediate : Bool
  RiderInitiated : Bool
  deriving DecidableEq

/-- EntityLinkAction (entity_link.go): chainErr of two varint64 reads, a
byte and two booleans; every read runs and the first error wins. -/
def EntityLinkAction : Rd EntityLink := fun s =>
  let (r1, s1) := Varint64 s
  let (r2, s2) := Varint64 s1
  let (r3, s3) := readByte s2
  let (r4, s4) := readBool s3
  let (r5, s5) := readBool s4
  match errJoin (errJoin (errJoin (errJoin (errJoin (.ok ()) r1) r2) r3) r4) r5 with
  | .error e => (.error e, s5)
  | .ok () =>
    (.ok { RiddenEntityUniqueID := resD r1 0, RiderEntityUniqueID := resD r2 0,
           Type' := resD r3 0, Immediate := resD r4 false, RiderInitiated := resD r5 false }, s5)

/-- EntityLinks (entity_link.go): a varuint count bounded by lowerLimit,
then that many links, stopping at the first failing link. -/
def EntityLinks : Rd (List EntityLink) := fun s =>
  match Varuint32 s with
  | (.error e, s') => (.error e, s')
  | (.ok count, s') =>
    if count > lowerLimit then (.error (.limitHit lowerLimit "entity link"), s')
    else readLoop EntityLinkAction count s'

/-- WriteEntityLinkAction (entity_link.go). -/
def WriteEntityLinkAction (x : EntityLink) : Bytes :=
  WriteVarint64 x.RiddenEntityUniqueID ++ WriteVarint64 x.RiderEntityUniqueID ++
    [x.Type' % 256] ++ WriteBool x.Immediate ++ WriteBool x.RiderInitiated

/-- WriteEntityLinks (entity_link.go): uint32 of the length as a varuint,
then the links. -/
def WriteEntityLinks (x : List EntityLink) : Bytes :=
  WriteVaruint32 x.length ++ (x.map WriteEntityLinkAction).flatten

/-- EnchantmentInstance (enchantment source file): a type byte and a level
byte; Type is renamed Type'. -/
structure EnchantmentInstance where
  Type' : Nat
  Level : Nat
  deriving DecidableEq

/-- Enchant: chainErr of two byte reads. -/
def Enchant : Rd EnchantmentInstance := fun s =>
  let (r1, s1) := readByte s
  let (r2, s2) := readByte s1
  match errJoin (errJoin (.ok ()) r1) r2 with
  | .error e => (.error e, s2)
  | .ok () => (.ok { Type' := resD r1 0, Level := resD r2 0 }, s2)

/-- WriteEnchant: the two bytes. -/
def WriteEnchant (x : EnchantmentInstance) : Bytes := [x.Type' % 256, x.Level % 256]

/-- ItemEnchantments: a slot bitmask and three activation buckets. The Go
[3]-array of slices is modelled as a triple of lists. -/
structure ItemEnchantments where
  Slot : Int
  Enchantments : List EnchantmentInstance × List EnchantmentInstance × List EnchantmentInstance
  deriving DecidableEq

/-- One bucket of ItemEnchants: a varuint count (with no ceiling applied),
then that many enchantment instances. -/
def readEnchantBucket : Rd (List EnchantmentInstance) := fun s =>
  match Varuint32 s with
  | (.error e, s') => (.error e, s')
  | (.ok l, s') => readLoop Enchant l s'

/-- ItemEnchants: a little-endian int32 slot, then the three buckets, with
an early return at the first error. -/
def ItemEnchants : Rd ItemEnchantments := fun s =>
  match readI32 s with
  | (.error e, s') => (.error e, s')
  | (.ok slot, s') =>
    match readEnchantBucket s' with
    | (.error e, s1) => (.error e, s1)
    | (.ok b1, s1) =>
      match readEnchantBucket s1 with
      | (.error e, s2) => (.error e, s2)
      | (.ok b2, s2) =>
        match readEnchantBucket s2 with
        | (.error e, s3) => (.error e, s3)
        | (.ok b3, s3) => (.ok { Slot := slot, Enchantments := (b1, b2, b3) }, s3)

/-- WriteItemEnchants: the slot, then each bucket as a varuint count and the
instances. -/
def WriteItemEnchants (x : ItemEnchantments) : Bytes :=
  WriteI32 x.Slot ++
    (WriteVaruint32 x.Enchantments.1.length ++ (x.Enchantments.1.map WriteEnchant).flatten) ++
    (WriteVaruint32 x.Enchantments.2.1.length ++ (x.Enchantments.2.1.map WriteEnchant).flatten) ++
    (WriteVaruint32 x.Enchantments.2.2.length ++ (x.Enchantments.2.2.map WriteEnchant).flatten)

/-- EnchantmentOption: one option in the enchantment table. -/
structure EnchantmentOption where
  Cost : Nat
  Enchantments : ItemEnchantments
  Name : Bytes
  RecipeNetworkID : Nat
  deriving DecidableEq

/-- EnchantOption: chainErr of cost, enchantments, name and recipe network
id; every read runs and the first error wins. -/
def EnchantOption : Rd EnchantmentOption := fun s =>
  let (r1, s1) := Varuint32 s
  let (r2, s2) := ItemEnchants s1
  let (r3, s3) := String' s2
  let (r4, s4) := Varuint32 s3
  match errJoin (errJoin (errJoin (errJoin (.ok ()) r1) r2) r3) r4 with
  | .error e => (.error e, s4)
  | .ok () =>
    (.ok { Cost := resD r1 0, Enchantments := resD r2 { Slot := 0, Enchantments := ([], [], []) },
           Name := resD r3 [], RecipeNetworkID := resD r4 0 }, s4)

/-- WriteEnchantOption. -/
def WriteEnchantOption (x : EnchantmentOption) : Bytes :=
  WriteVaruint32 x.Cost ++ WriteItemEnchants x.Enchantments ++ WriteString x.Name ++
    WriteVaruint32 x.RecipeNetworkID

/-- ItemStack (item.go): the embedded ItemType (NetworkID, MetadataValue) is
flattened into the structure; NBTData, a Go map in insertion order, is an
association list of NBT entries. -/
structure ItemStack where
  NetworkID : Int
  MetadataValue : Int
  Count : Int
  NBTData : List (Bytes × NbtTag)
  CanBePlacedOn : List Bytes
  CanBreak : List Bytes

/-- The aux value WriteItem packs (item.go line 139): the int16 shift
MetadataValue shl 8 wraps in int16, is sign-extended to int32 and combined
by a 32-bit bitwise or with the sign-extended Count. -/
def auxOf (metadata count : Int) : Int :=
  ofBits32 (bits32 (toInt16 (metadata * 2 ^ 8)) ||| bits32 count)

/-- The aux value in the words of the spec: (metadata shl 8) or
(count and 0xFF) in exact integer arithmetic, which is metadata * 2 ^ 8
plus the low byte of count (count % 2 ^ 8 is count's low byte as a
nonnegative value, and the shifted metadata has a free low byte). -/
def specAux (metadata count : Int) : Int := metadata * 2 ^ 8 + count % 2 ^ 8

/-- Metadata recovered by Item (item.go line 54): the int32 arithmetic right
shift by 8 is a floor division by 2 ^ 8 (the divisor is positive; Int
division here is Euclidean, which agrees), then an int16 conversion
wraps. -/
def metaFromAux (aux : Int) : Int := toInt16 (aux / 2 ^ 8)

/-- Count recovered by Item (item.go line 55): aux and 0xFF is aux % 2 ^ 8
on the two's-complement value, which already fits int16. -/
def countFromAux (aux : Int) : Int := aux % 2 ^ 8

/-- The minus-one NBT branch of Item (item.go lines 62-77): one count byte
that must equal 1, then one NBT compound decoded from the cursor. -/
def nbtCountPath : Rd (List (Bytes × NbtTag)) := fun s =>
  match readByte s with
  | (.error e, s') => (.error e, s')
  | (.ok nbtCount, s') =>
    if nbtCount = 1 then readNbtRoot s'
    else (.error (.malformed "expected NBT count to be 1"), s')

/-- The legacy positive-length NBT branch of Item (item.go lines 78-86):
src.Next detaches min(n, len) bytes from the cursor and the compound is
unmarshalled from the detached bytes alone (bytes of the detached slice
past the compound are not part of the cursor any more). -/
def legacyPath (n : Nat) : Rd (List (Bytes × NbtTag)) := fun s =>
  match readNbtRoot (s.take n) with
  | (.ok entries, _) => (.ok entries, s.drop n)
  | (.error e, _) => (.error e, s.drop n)

/-- One of the two identical string-list blocks of Item (item.go lines
89-104 and 105-119): a varint count, negative counts rejected, counts above
higherLimit rejected before any element is read, then the strings. -/
def readCanList (t : String) : Rd (List Bytes) := fun s =>
  match Varint32 s with
  | (.error e, s') => (.error e, s')
  | (.ok count, s') =>
    if count < 0 then (.error (.negativeCount t), s')
    else if count > (higherLimit : Int) then (.error (.limitHit higherLimit t), s')
    else readLoop String' count.toNat s'

/-- The marker dispatch of Item (item.go lines 57-87), as one named branch
per sentinel value: 0 is no NBT, -1 the count-prefixed compound path, any
other negative marker the invalid-NBT-count error, and a positive marker
the legacy length-prefixed path. -/
def nbtMarkerPath (marker : Int) : Rd (List (Bytes × NbtTag)) := fun s =>
  if marker = 0 then (.ok [], s)
  else if marker = -1 then nbtCountPath s
  else if marker < 0 then (.error (.malformed "invalid NBT count"), s)
  else legacyPath marker.toNat s

/-- Item up to and including the can-break list (item.go lines 37-119),
its early-return sequence written as a bind chain: network id (zero is the
air sentinel and stops the read with every other field zeroed), the aux
varint split into metadata and count, the int16 NBT marker dispatched
through nbtMarkerPath, and the two bounded string lists. -/
def ItemBody : Rd ItemStack :=
  rbind Varint32 fun nid =>
    if nid = 0 then
      pureR { NetworkID := 0, MetadataValue := 0, Count := 0, NBTData := [],
              CanBePlacedOn := [], CanBreak := [] }
    else
      rbind Varint32 fun aux =>
      rbind readI16 fun marker =>
      rbind (nbtMarkerPath marker) fun nbtData =>
      rbind (readCanList "item can be placed on") fun canPlace =>
      rbind (readCanList "item can break") fun canBreak =>
      pureR { NetworkID := nid, MetadataValue := metaFromAux aux, Count := countFromAux aux,
              NBTData := nbtData, CanBePlacedOn := canPlace, CanBreak := canBreak }

/-- Item (item.go lines 37-128): the body, then — only for the shield
network id 513 — one trailing varint64 whose value is read and dropped. -/
def Item : Rd ItemStack := fun s =>
  match ItemBody s with
  | (.error e, s') => (.error e, s')
  | (.ok x, s') =>
    if x.NetworkID = 513 then
      match Varint64 s' with
      | (.error e, s2) => (.error e, s2)
      | (.ok _, s2) => (.ok x, s2)
    else (.ok x, s')

/-- WriteItem (item.go lines 131-186): the network id (zero writes nothing
more), the packed aux varint, the NBT marker (-1, a count byte 1 and the
marshalled compound when NBT is present, 0 otherwise), the two string
lists with int32-converted lengths, and a zero-valued blocking tick for the
shield id. -/
def WriteItem (x : ItemStack) : Bytes :=
  WriteVarint32 x.NetworkID ++
    if x.NetworkID = 0 then [] else
      WriteVarint32 (auxOf x.MetadataValue x.Count) ++
      (if x.NBTData.length ≠ 0 then WriteI16 (-1) ++ [1] ++ nbtMarshal x.NBTData
       else WriteI16 0) ++
      WriteVarint32 (toInt32 x.CanBePlacedOn.length) ++ (x.CanBePlacedOn.map WriteString).flatten ++
      WriteVarint32 (toInt32 x.CanBreak.length) ++ (x.CanBreak.map WriteString).flatten ++
      (if x.NetworkID = 513 then WriteVarint64 0 else [])

/-- RecipeIngredient (item.go lines 189-209), including the slip at its
first read: when the leading network-id varint fails, the Go code returns
nil — success — instead of the error, leaving the stack untouched. -/
def RecipeIngredient (s : Bytes) (x : ItemStack) : Except Err ItemStack × Bytes :=
  match Varint32 s with
  | (.error _, s1) => (.ok x, s1)
  | (.ok nid, s1) =>
    let x := { x with NetworkID := nid }
    if nid = 0 then (.ok x, s1)
    else
      match Varint32 s1 with
      | (.error e, s2) => (.error e, s2)
      | (.ok meta, s2) =>
        let x := { x with MetadataValue := toInt16 meta }
        match Varint32 s2 with
        | (.error e, s3) => (.error e, s3)
        | (.ok count, s3) =>
          if count < 0 then (.error (.negativeCount "recipe ingredient count"), s3)
          else (.ok { x with Count := toInt16 count }, s3)

/-- SkinAnimation (skin.go): FrameCount is a float32 carried as its raw
IEEE-754 little-endian bit pattern, which the codec transports opaquely. -/
structure SkinAnimation where
  ImageWidth : Nat
  ImageHeight : Nat
  ImageData : Bytes
  AnimationType : Nat
  FrameCount : Nat
  deriving DecidableEq

/-- PersonaPiece (skin.go). -/
structure PersonaPiece where
  PieceID : Bytes
  PieceType : Bytes
  PackID : Bytes
  Default : Bool
  ProductID : Bytes
  deriving DecidableEq

/-- PersonaPieceTintColour (skin.go). -/
structure PersonaPieceTintColour where
  PieceType : Bytes
  Colours : List Bytes
  deriving DecidableEq

/-- Skin (skin.go), field for field. -/
structure Skin where
  SkinID : Bytes
  SkinResourcePatch : Bytes
  SkinImageWidth : Nat
  SkinImageHeight : Nat
  SkinData : Bytes
  Animations : List SkinAnimation
  CapeImageWidth : Nat
  CapeImageHeight : Nat
  CapeData : Bytes
  SkinGeometry : Bytes
  AnimationData : Bytes
  PremiumSkin : Bool
  PersonaSkin : Bool
  PersonaCapeOnClassicSkin : Bool
  CapeID : Bytes
  FullSkinID : Bytes
  SkinColour : Bytes
  ArmSize : Bytes
  PersonaPieces : List PersonaPiece
  PieceTintColours : List PersonaPieceTintColour
  Trusted : Bool
  deriving DecidableEq

/-- The animation checks of Skin.validate (skin.go lines 187-191), in the
uint32 arithmetic the Go code uses: height * width * 4 and the data length
are compared after wrapping to 32 bits. -/
def validAnimations : List SkinAnimation → Except Err Unit
  | [] => .ok ()
  | a :: t =>
    if (a.ImageHeight * a.ImageWidth * 4) % 2 ^ 32 ≠ a.ImageData.length % 2 ^ 32 then
      .error (.invariantFault "animation size")
    else validAnimations t

/-- Skin.validate (skin.go lines 180-193): the skin, cape and animation
image sizes, each compared in uint32 arithmetic. -/
def Skin.validate (x : Skin) : Except Err Unit :=
  if (x.SkinImageHeight * x.SkinImageWidth * 4) % 2 ^ 32 ≠ x.SkinData.length % 2 ^ 32 then
    .error (.invariantFault "skin size")
  else if (x.CapeImageHeight * x.CapeImageWidth * 4) % 2 ^ 32 ≠ x.CapeData.length % 2 ^ 32 then
    .error (.invariantFault "cape size")
  else validAnimations x.Animations

/-- Animation (skin.go lines 234-242): chainErr of the five field reads. -/
def Animation : Rd SkinAnimation := fun s =>
  let (r1, s1) := readU32 s
  let (r2, s2) := readU32 s1
  let (r3, s3) := ByteSlice' s2
  let (r4, s4) := readU32 s3
  let (r5, s5) := readU32 s4
  match errJoin (errJoin (errJoin (errJoin (errJoin (.ok ()) r1) r2) r3) r4) r5 with
  | .error e => (.error e, s5)
  | .ok () =>
    (.ok { ImageWidth := resD r1 0, ImageHeight := resD r2 0, ImageData := resD r3 [],
           AnimationType := resD r4 0, FrameCount := resD r5 0 }, s5)

/-- WriteAnimation (skin.go lines 223-231). -/
def WriteAnimation (x : SkinAnimation) : Bytes :=
  WriteU32 x.ImageWidth ++ WriteU32 x.ImageHeight ++ WriteByteSlice x.ImageData ++
    WriteU32 x.AnimationType ++ WriteU32 x.FrameCount

/-- SkinPiece (skin.go lines 282-290): chainErr of the five field reads. -/
def SkinPiece : Rd PersonaPiece := fun s =>
  let (r1, s1) := String' s
  let (r2, s2) := String' s1
  let (r3, s3) := String' s2
  let (r4, s4) := readBool s3
  let (r5, s5) := String' s4
  match errJoin (errJoin (errJoin (errJoin (errJoin (.ok ()) r1) r2) r3) r4) r5 with
  | .error e => (.error e, s5)
  | .ok () =>
    (.ok { PieceID := resD r1 [], PieceType := resD r2 [], PackID := resD r3 [],
           Default := resD r4 false, ProductID := resD r5 [] }, s5)

/-- WriteSkinPiece (skin.go lines 271-279). -/
def WriteSkinPiece (x : PersonaPiece) : Bytes :=
  WriteString x.PieceID ++ WriteString x.PieceType ++ WriteString x.PackID ++
    WriteBool x.Default ++ WriteString x.ProductID

/-- SkinPieceTint (skin.go lines 328-343): chainErr of the piece type and
the colour count (with no ceiling applied), then the colours. -/
def SkinPieceTint : Rd PersonaPieceTintColour := fun s =>
  let (r1, s1) := String' s
  let (r2, s2) := readU32 s1
  match errJoin (errJoin (.ok ()) r1) r2 with
  | .error e => (.error e, s2)
  | .ok () =>
    match readLoop String' (resD r2 0) s2 with
    | (.error e, s3) => (.error e, s3)
    | (.ok colours, s3) =>
      (.ok { PieceType := resD r1 [], Colours := colours }, s3)

/-- WriteSkinPieceTint (skin.go lines 312-325). -/
def WriteSkinPieceTint (x : PersonaPieceTintColour) : Bytes :=
  WriteString x.PieceType ++ WriteU32 x.Colours.length ++ (x.Colours.map WriteString).flatten

/-- SerialisedSkin (skin.go lines 123-176), reading into a previous skin
value exactly as the Go code reads through the pointer: each chainErr block
runs all of its reads, fields keep their previous value where their read
failed, the blocks return early with the first error, and validate runs
last. The Trusted field is never read from the wire. On a mid-loop error
the Go code leaves a partially filled slice in the corresponding field;
this model keeps the field's previous value in that one case, which no
other field and no error result observes. -/
def SerialisedSkin (s : Bytes) (x : Skin) : Except Err Unit × Skin × Bytes :=
  let (r1, s1) := String' s
  let (r2, s2) := ByteSlice' s1
  let (r3, s3) := readU32 s2
  let (r4, s4) := readU32 s3
  let (r5, s5) := ByteSlice' s4
  let (r6, s6) := readU32 s5
  let x := { x with
    SkinID := resD r1 x.SkinID, SkinResourcePatch := resD r2 x.SkinResourcePatch,
    SkinImageWidth := resD r3 x.SkinImageWidth,
    SkinImageHeight := resD r4 x.SkinImageHeight, SkinData := resD r5 x.SkinData }
  match errJoin (errJoin (errJoin (errJoin (errJoin (errJoin (.ok ()) r1) r2) r3) r4) r5) r6 with
  | .error e => (.error e, x, s6)
  | .ok () =>
    match readLoop Animation (resD r6 0) s6 with
    | (.error e, s7) => (.error e, x, s7)
    | (.ok anims, s7) =>
      let x := { x with Animations := anims }
      let (q1, t1) := readU32 s7
      let (q2, t2) := readU32 t1
      let (q3, t3) := ByteSlice' t2
      let (q4, t4) := ByteSlice' t3
      let (q5, t5) := ByteSlice' t4
      let (q6, t6) := readBool t5
      let (q7, t7) := readBool t6
      let (q8, t8) := readBool t7
      let (q9, t9) := String' t8
      let (q10, t10) := String' t9
      let (q11, t11) := String' t10
      let (q12, t12) := String' t11
      let (q13, t13) := readU32 t12
      let x := { x with
        CapeImageWidth := resD q1 x.CapeImageWidth,
        CapeImageHeight := resD q2 x.CapeImageHeight, CapeData := resD q3 x.CapeData,
        SkinGeometry := resD q4 x.SkinGeometry, AnimationData := resD q5 x.AnimationData,
        PremiumSkin := resD q6 x.PremiumSkin, PersonaSkin := resD q7 x.PersonaSkin,
        PersonaCapeOnClassicSkin := resD q8 x.PersonaCapeOnClassicSkin,
        CapeID := resD q9 x.CapeID, FullSkinID := resD q10 x.FullSkinID,
        ArmSize := resD q11 x.ArmSize, SkinColour := resD q12 x.SkinColour }
      match errJoin (errJoin (errJoin (errJoin (errJoin (errJoin (errJoin (errJoin (errJoin
        (errJoin (errJoin (errJoin (errJoin (.ok ()) q1) q2) q3) q4) q5) q6) q7) q8) q9)
        q10) q11) q12) q13 with
      | .error e => (.error e, x, t13)
      | .ok () =>
        match readLoop SkinPiece (resD q13 0) t13 with
        | (.error e, t14) => (.error e, x, t14)
        | (.ok pieces, t14) =>
          let x := { x with PersonaPieces := pieces }
          match readU32 t14 with
          | (.error e, t15) => (.error e, x, t15)
          | (.ok c2, t15) =>
            match readLoop SkinPieceTint c2 t15 with
            | (.error e, t16) => (.error e, x, t16)
            | (.ok tints, t16) =>
              let x := { x with PieceTintColours := tints }
              match x.validate with
              | .error e => (.error e, x, t16)
              | .ok () => (.ok (), x, t16)

/-- WriteSerialisedSkin (skin.go lines 70-120): validate first — the Go
code panics on a validation failure, modelled as the error result — then
the flat field sequence. The Trusted field is never written. -/
def WriteSerialisedSkin (x : Skin) : Except Err Bytes :=
  match x.validate with
  | .error e => .error e
  | .ok () => .ok (
      WriteString x.SkinID ++ WriteByteSlice x.SkinResourcePatch ++ WriteU32 x.SkinImageWidth ++
      WriteU32 x.SkinImageHeight ++ WriteByteSlice x.SkinData ++ WriteU32 x.Animations.length ++
      (x.Animations.map WriteAnimation).flatten ++ WriteU32 x.CapeImageWidth ++
      WriteU32 x.CapeImageHeight ++ WriteByteSlice x.CapeData ++ WriteByteSlice x.SkinGeometry ++
      WriteByteSlice x.AnimationData ++ WriteBool x.PremiumSkin ++ WriteBool x.PersonaSkin ++
      WriteBool x.PersonaCapeOnClassicSkin ++ WriteString x.CapeID ++ WriteString x.FullSkinID ++
      WriteString x.ArmSize ++ WriteString x.SkinColour ++ WriteU32 x.PersonaPieces.length ++
      (x.PersonaPieces.map WriteSkinPiece).flatten ++ WriteU32 x.PieceTintColours.length ++
      (x.PieceTintColours.map WriteSkinPieceTint).flatten)

/-- A value storable in the Go EntityLink structure: the unique ids are
int64 and the link type is a byte. -/
abbrev wfEntityLink (x : EntityLink) : Prop :=
  -2 ^ 63 ≤ x.RiddenEntityUniqueID ∧ x.RiddenEntityUniqueID < 2 ^ 63 ∧
    -2 ^ 63 ≤ x.RiderEntityUniqueID ∧ x.RiderEntityUniqueID < 2 ^ 63 ∧ x.Type' < 256

/-- A value storable in the Go EnchantmentInstance structure: two bytes. -/
abbrev wfEnchantmentInstance (x : EnchantmentInstance) : Prop :=
  x.Type' < 256 ∧ x.Level < 256

/-- One enchantment bucket as Go can hold it: a slice whose length fits the
uint32 the writer emits, of byte pairs. -/
abbrev wfBucket (l : List EnchantmentInstance) : Prop :=
  l.length < 2 ^ 32 ∧ ∀ e ∈ l, wfEnchantmentInstance e

/-- A value storable in the Go ItemEnchantments structure. -/
abbrev wfItemEnchantments (x : ItemEnchantments) : Prop :=
  -2 ^ 31 ≤ x.Slot ∧ x.Slot < 2 ^ 31 ∧ wfBucket x.Enchantments.1 ∧
    wfBucket x.Enchantments.2.1 ∧ wfBucket x.Enchantments.2.2

/-- A value storable in the Go EnchantmentOption structure. -/
abbrev wfEnchantmentOption (x : EnchantmentOption) : Prop :=
  x.Cost < 2 ^ 32 ∧ wfItemEnchantments x.Enchantments ∧ x.Name.length < 2 ^ 32 ∧
    x.RecipeNetworkID < 2 ^ 32

/-- An item stack in canonical encoding range: the network id is a nonzero
int32, the metadata and count lie where the aux packing is lossless
(metadata in [-128, 127], count in [0, 255]), there is no NBT, and the two
block lists respect the decoder's ceiling with string lengths that fit
their uint32 length prefix. -/
abbrev wfStack (x : ItemStack) : Prop :=
  -2 ^ 31 ≤ x.NetworkID ∧ x.NetworkID < 2 ^ 31 ∧ x.NetworkID ≠ 0 ∧
    -2 ^ 7 ≤ x.MetadataValue ∧ x.MetadataValue < 2 ^ 7 ∧
    0 ≤ x.Count ∧ x.Count < 2 ^ 8 ∧ x.NBTData = [] ∧
    x.CanBePlacedOn.length ≤ higherLimit ∧ (∀ b ∈ x.CanBePlacedOn, b.length < 2 ^ 32) ∧
    x.CanBreak.length ≤ higherLimit ∧ (∀ b ∈ x.CanBreak, b.length < 2 ^ 32)

/-- The zero value of the Skin structure, as a Go caller passes it to
SerialisedSkin. -/
def skinZero : Skin :=
  { SkinID := [], SkinResourcePatch := [], SkinImageWidth := 0, SkinImageHeight := 0,
    SkinData := [], Animations := [], CapeImageWidth := 0, CapeImageHeight := 0, CapeData := [],
    SkinGeometry := [], AnimationData := [], PremiumSkin := false, PersonaSkin := false,
    PersonaCapeOnClassicSkin := false, CapeID := [], FullSkinID := [], SkinColour := [],
    ArmSize := [], PersonaPieces := [], PieceTintColours := [], Trusted := false }

/-- A serialised-skin byte vector declaring a 2 ^ 30 by 1 skin image with an
empty pixel buffer: empty skin id and resource patch, width 2 ^ 30
(little-endian 00 00 00 40), height 1, empty skin data, no animations, a
0 by 0 cape with empty data, empty geometry and animation data, three
false booleans, four empty strings, no persona pieces and no tints. -/
def overflowSkinInput : Bytes :=
  [0] ++ [0] ++ [0, 0, 0, 64] ++ [1, 0, 0, 0] ++ [0] ++ [0, 0, 0, 0] ++ [0, 0, 0, 0] ++
    [0, 0, 0, 0] ++ [0] ++ [0] ++ [0] ++ [0, 0, 0] ++ [0] ++ [0] ++ [0] ++ [0] ++
    [0, 0, 0, 0] ++ [0, 0, 0, 0]

/-- The skin decoded from overflowSkinInput. -/
def overflowSkin : Skin := { skinZero with SkinImageWidth := 2 ^ 30, SkinImageHeight := 1 }

/-- An item-stack byte vector with NBT presence marker 4 (neither 0 nor
-1): network id 1, aux 0, marker 04 00, then the four bytes 0a 00 00 00 —
a little-endian compound with an empty name and no entries — and two empty
block lists. -/
def legacyMarkerInput : Bytes := [2, 0, 4, 0, 10, 0, 0, 0, 0, 0]

/-- A shield item-stack byte vector with a nonzero trailing blocking tick:
network id 513 (82 08), aux 0, marker 00 00, two empty block lists, then
blocking tick 1 (02). -/
def shieldTickInput : Bytes := [130, 8, 0, 0, 0, 0, 0, 2]

/-- The stack decoded from shieldTickInput. -/
def shieldStack : ItemStack :=
  { NetworkID := 513, MetadataValue := 0, Count := 0, NBTData := [],
    CanBePlacedOn := [], CanBreak := [] }

/-- Low seven bits of a byte below 128, and its clear continuation bit. -/
theorem low_byte_and (m : Nat) (h : m < 128) : m &&& 128 = 0 ∧ m &&& 127 = m := by
  revert h
  revert m
  decide

/-- Low seven bits of a continuation byte, and its set continuation bit. -/
theorem cont_byte_and (m : Nat) (h : m < 128) :
    (m + 128) &&& 128 = 128 ∧ (m + 128) &&& 127 = m := by
  revert h
  revert m
  decide

/-- LEB128 round trip at the accumulator level: reading an encoded value
adds the value, shifted into place, to the accumulator, and leaves the
trailing bytes untouched. -/
theorem varuintRead_ulebF (w : Nat) :
    ∀ fuel n shift acc rest, n < 2 ^ (7 * (fuel + 1)) →
      varuintRead w (fuel + 1) shift acc (ulebF (fuel + 1) n ++ rest) =
        (.ok ((acc + n * 2 ^ shift) % 2 ^ w), rest) := by
  intro fuel
  induction fuel with
  | zero =>
    intro n shift acc rest hn
    have h7 : n < 128 := hn
    have hand := low_byte_and n h7
    simp only [ulebF, if_pos h7, List.cons_append, List.nil_append, varuintRead, hand.1,
      eq_self_iff_true, if_true, hand.2]
  | succ fuel ih =>
    intro n shift acc rest hn
    by_cases h7 : n < 128
    · have hand := low_byte_and n h7
      simp only [ulebF, if_pos h7, List.cons_append, List.nil_append, varuintRead, hand.1,
        eq_self_iff_true, if_true, hand.2]
    · have hm : n % 128 < 128 := Nat.mod_lt _ (by omega)
      have hand := cont_byte_and (n % 128) hm
      have hdiv : n / 128 < 2 ^ (7 * (fuel + 1)) := by
        have h128 : (128 : Nat) = 2 ^ 7 := by norm_num
        have : n < 2 ^ (7 * (fuel + 1)) * 2 ^ 7 := by
          calc n < 2 ^ (7 * (fuel + 1 + 1)) := hn
          _ = 2 ^ (7 * (fuel + 1)) * 2 ^ 7 := by ring
        omega
      have hrec := ih (n / 128) (shift + 7) (acc + n % 128 * 2 ^ shift) rest hdiv
      simp only [ulebF, if_neg h7, List.cons_append, varuintRead, hand.1, hand.2] at hrec ⊢
      norm_num
      rw [hrec]
      have hsplit : acc + n % 128 * 2 ^ shift + n / 128 * 2 ^ (shift + 7) =
          acc + n * 2 ^ shift := by
        have hmod := Nat.div_add_mod n 128
        calc acc + n % 128 * 2 ^ shift + n / 128 * 2 ^ (shift + 7)
            = acc + (n % 128 + 128 * (n / 128)) * 2 ^ shift := by ring
        _ = acc + n * 2 ^ shift := by rw [Nat.add_comm (n % 128), hmod]
      rw [hsplit]

/-- Unsigned 32-bit varint round trip, preserving trailing bytes. -/
theorem Varuint32_write (n : Nat) (rest : Bytes) (h : n < 2 ^ 32) :
    Varuint32 (WriteVaruint32 n ++ rest) = (.ok n, rest) := by
  have hn : n % 2 ^ 32 = n := Nat.mod_eq_of_lt h
  have h5 : varuintRead 32 5 0 0 (ulebF 5 n ++ rest) = (.ok ((0 + n * 2 ^ 0) % 2 ^ 32), rest) :=
    varuintRead_ulebF 32 4 n 0 0 rest (by omega)
  rw [Varuint32, WriteVaruint32, hn, h5]
  norm_num
  omega

/-- Unsigned 64-bit varint round trip, preserving trailing bytes. -/
theorem Varuint64_write (n : Nat) (rest : Bytes) (h : n < 2 ^ 64) :
    Varuint64 (WriteVaruint64 n ++ rest) = (.ok n, rest) := by
  have hn : n % 2 ^ 64 = n := Nat.mod_eq_of_lt h
  have h10 : varuintRead 64 10 0 0 (ulebF 10 n ++ rest) = (.ok ((0 + n * 2 ^ 0) % 2 ^ 64), rest) :=
    varuintRead_ulebF 64 9 n 0 0 rest (by omega)
  rw [Varuint64, WriteVaruint64, hn, h10]
  norm_num
  omega

/-- Zig-zag decoding inverts zig-zag encoding. -/
theorem unzigzag_zigzag (x : Int) : unzigzag (zigzag x) = x := by
  unfold zigzag unzigzag
  by_cases h : 0 ≤ x
  · rw [if_pos h]
    have h2 : (2 * x).toNat = 2 * x.toNat := by omega
    have heven : (2 * x.toNat) % 2 = 0 := by omega
    rw [h2]
    simp only [heven]
    norm_num
    omega
  · rw [if_neg h]
    have h2 : (-2 * x - 1).toNat = 2 * (-x).toNat - 1 := by omega
    have hpos : 1 ≤ (-x).toNat := by omega
    rw [h2]
    have hodd : (2 * (-x).toNat - 1) % 2 = 1 := by omega
    simp only [hodd]
    norm_num
    omega

/-- The zig-zag magnitude of an int32-range value fits 32 bits. -/
theorem zigzag_lt32 (x : Int) (hlo : -2 ^ 31 ≤ x) (hhi : x < 2 ^ 31) :
    zigzag x < 2 ^ 32 := by
  unfold zigzag
  split <;> omega

/-- The zig-zag magnitude of an int64-range value fits 64 bits. -/
theorem zigzag_lt64 (x : Int) (hlo : -2 ^ 63 ≤ x) (hhi : x < 2 ^ 63) :
    zigzag x < 2 ^ 64 := by
  unfold zigzag
  split <;> omega

/-- Signed 32-bit varint round trip, preserving trailing bytes. -/
theorem Varint32_write (x : Int) (rest : Bytes) (hlo : -2 ^ 31 ≤ x) (hhi : x < 2 ^ 31) :
    Varint32 (WriteVarint32 x ++ rest) = (.ok x, rest) := by
  have hz : zigzag x % 2 ^ 32 = zigzag x := Nat.mod_eq_of_lt (zigzag_lt32 x hlo hhi)
  have hw : WriteVarint32 x = WriteVaruint32 (zigzag x) := by
    rw [WriteVarint32, WriteVaruint32, hz]
  simp only [Varint32, rdMap, hw, Varuint32_write _ _ (zigzag_lt32 x hlo hhi), unzigzag_zigzag]

/-- Signed 64-bit varint round trip, preserving trailing bytes. -/
theorem Varint64_write (x : Int) (rest : Bytes) (hlo : -2 ^ 63 ≤ x) (hhi : x < 2 ^ 63) :
    Varint64 (WriteVarint64 x ++ rest) = (.ok x, rest) := by
  have hz : zigzag x % 2 ^ 64 = zigzag x := Nat.mod_eq_of_lt (zigzag_lt64 x hlo hhi)
  have hw : WriteVarint64 x = WriteVaruint64 (zigzag x) := by
    rw [WriteVarint64, WriteVaruint64, hz]
  simp only [Varint64, rdMap, hw, Varuint64_write _ _ (zigzag_lt64 x hlo hhi), unzigzag_zigzag]

/-- readN of exactly the bytes of a list, preserving trailing bytes. -/
theorem readN_append (l rest : Bytes) : readN l.length (l ++ rest) = (.ok l, rest) := by
  induction l with
  | nil => rfl
  | cons b t ih => simp [readN, ih]

/-- String round trip, preserving trailing bytes. -/
theorem String'_write (l : Bytes) (rest : Bytes) (h : l.length < 2 ^ 32) :
    String' (WriteString l ++ rest) = (.ok l, rest) := by
  simp only [String', WriteString, List.append_assoc, Varuint32_write _ _ h, readN_append]

/-- Byte-slice round trip, preserving trailing bytes. -/
theorem ByteSlice'_write (l : Bytes) (rest : Bytes) (h : l.length < 2 ^ 32) :
    ByteSlice' (WriteByteSlice l ++ rest) = (.ok l, rest) := by
  simp only [ByteSlice', WriteByteSlice, List.append_assoc, Varuint32_write _ _ h, readN_append]

/-- A little-endian byte block holds the value modulo the block range. -/
theorem leVal_leBytes : ∀ w n, leVal (leBytes w n) = n % 256 ^ w := by
  intro w
  induction w with
  | zero => intro n; simp [leBytes, leVal, Nat.mod_one]
  | succ w ih =>
    intro n
    simp only [leBytes, leVal, ih]
    have h : 256 ^ (w + 1) = 256 * 256 ^ w := by ring
    rw [h, Nat.mod_mul]

/-- Length of a little-endian byte block. -/
theorem leBytes_length : ∀ w n, (leBytes w n).length = w := by
  intro w
  induction w with
  | zero => simp [leBytes]
  | succ w ih => intro n; simp [leBytes, ih]

/-- readN of a fixed-width block, preserving trailing bytes. -/
theorem readN_leBytes (w n : Nat) (rest : Bytes) :
    readN w (leBytes w n ++ rest) = (.ok (leBytes w n), rest) := by
  have h := readN_append (leBytes w n) rest
  rw [leBytes_length] at h
  exact h

/-- Little-endian uint32 round trip, preserving trailing bytes. -/
theorem readU32_write (n : Nat) (rest : Bytes) (h : n < 2 ^ 32) :
    readU32 (WriteU32 n ++ rest) = (.ok n, rest) := by
  have hval : leVal (leBytes 4 n) = n := by
    rw [leVal_leBytes]
    norm_num
    omega
  rw [readU32, rdMap, WriteU32, readN_leBytes]
  simp [hval]

/-- Little-endian int16 round trip, preserving trailing bytes. -/
theorem readI16_write (x : Int) (rest : Bytes) (hlo : -2 ^ 15 ≤ x) (hhi : x < 2 ^ 15) :
    readI16 (WriteI16 x ++ rest) = (.ok x, rest) := by
  have hval : leVal (leBytes 2 (x % 2 ^ 16).toNat) = (x % 2 ^ 16).toNat := by
    rw [leVal_leBytes]
    norm_num
    omega
  have hs : sintOf 16 (x % 2 ^ 16).toNat = x := by
    unfold sintOf
    split <;> omega
  rw [readI16, rdMap, WriteI16, readN_leBytes]
  simp only [hval, hs]

/-- Boolean round trip, preserving trailing bytes. -/
theorem readBool_write (b : Bool) (rest : Bytes) :
    readBool (WriteBool b ++ rest) = (.ok b, rest) := by
  cases b <;> rfl

/-- Head-step reduction of a bind chain on a successful first read. -/
theorem rbind_ok (m : Rd α) (f : α → Rd β) (s s' : Bytes) (a : α) (h : m s = (.ok a, s')) :
    rbind m f s = f a s' := by
  unfold rbind
  rw [h]

/-- Head-step reduction of a bind chain on a failing first read: the error
and the cursor at the failure point are returned unchanged. -/
theorem rbind_err (m : Rd α) (f : α → Rd β) (s s' : Bytes) (e : Err) (h : m s = (.error e, s')) :
    rbind m f s = (.error e, s') := by
  unfold rbind
  rw [h]

/-- Little-endian int32 round trip, preserving trailing bytes. -/
theorem readI32_write (x : Int) (rest : Bytes) (hlo : -2 ^ 31 ≤ x) (hhi : x < 2 ^ 31) :
    readI32 (WriteI32 x ++ rest) = (.ok x, rest) := by
  have hval : leVal (leBytes 4 (x % 2 ^ 32).toNat) = (x % 2 ^ 32).toNat := by
    rw [leVal_leBytes]
    norm_num
    omega
  have hs : sintOf 32 (x % 2 ^ 32).toNat = x := by
    unfold sintOf
    split <;> omega
  rw [readI32, rdMap, WriteI32, readN_leBytes]
  simp only [hval, hs]

/-- A decode loop over the concatenated encodings of a list recovers the
list, preserving trailing bytes, given the per-element round trip. -/
theorem readLoop_write (f : Rd α) (w : α → Bytes) (l : List α)
    (h : ∀ x ∈ l, ∀ r, f (w x ++ r) = (.ok x, r)) (rest : Bytes) :
    readLoop f l.length ((l.map w).flatten ++ rest) = (.ok l, rest) := by
  induction l with
  | nil => rfl
  | cons a t ih =>
    have ha := h a (List.mem_cons_self a t) ((t.map w).flatten ++ rest)
    have ht := ih (fun x hx r => h x (List.mem_cons_of_mem a hx) r)
    simp only [List.map_cons, List.flatten_cons, List.length_cons, List.append_assoc, readLoop,
      ha, ht]

/-- Entity-link round trip, preserving trailing bytes. -/
theorem EntityLinkAction_write (x : EntityLink) (rest : Bytes) (h : wfEntityLink x) :
    EntityLinkAction (WriteEntityLinkAction x ++ rest) = (.ok x, rest) := by
  obtain ⟨ridden, rider, ty, imm, ri⟩ := x
  obtain ⟨h1, h2, h3, h4, h5⟩ := h
  have hty : ty % 256 = ty := Nat.mod_eq_of_lt h5
  simp only [EntityLinkAction, WriteEntityLinkAction, List.append_assoc, List.cons_append,
    List.nil_append, Varint64_write _ _ h1 h2, Varint64_write _ _ h3 h4, readByte,
    readBool_write, errJoin, resD, hty]

/-- Entity-link list round trip for lists within the lower limit,
preserving trailing bytes. -/
theorem EntityLinks_write (l : List EntityLink) (rest : Bytes)
    (hwf : ∀ x ∈ l, wfEntityLink x) (hlen : l.length ≤ lowerLimit) :
    EntityLinks (WriteEntityLinks l ++ rest) = (.ok l, rest) := by
  have hlt : l.length < 2 ^ 32 := by
    have : lowerLimit = 512 := rfl
    omega
  have hloop := readLoop_write EntityLinkAction WriteEntityLinkAction l
    (fun x hx r => EntityLinkAction_write x r (hwf x hx)) rest
  simp only [EntityLinks, WriteEntityLinks, List.append_assoc, Varuint32_write _ _ hlt,
    Nat.not_lt.mpr hlen, gt_iff_lt, if_neg (Nat.not_lt.mpr hlen), if_false, hloop]

/-- Enchantment-instance round trip, preserving trailing bytes. -/
theorem Enchant_write (x : EnchantmentInstance) (rest : Bytes) (h : wfEnchantmentInstance x) :
    Enchant (WriteEnchant x ++ rest) = (.ok x, rest) := by
  obtain ⟨ty, lv⟩ := x
  obtain ⟨h1, h2⟩ := h
  have hty : ty % 256 = ty := Nat.mod_eq_of_lt h1
  have hlv : lv % 256 = lv := Nat.mod_eq_of_lt h2
  simp only [Enchant, WriteEnchant, List.cons_append, List.nil_append, readByte, errJoin, resD,
    hty, hlv]

/-- Enchantment-bucket round trip, preserving trailing bytes. -/
theorem readEnchantBucket_write (l : List EnchantmentInstance) (rest : Bytes) (h : wfBucket l) :
    readEnchantBucket (WriteVaruint32 l.length ++ ((l.map WriteEnchant).flatten ++ rest)) =
      (.ok l, rest) := by
  obtain ⟨h1, h2⟩ := h
  have hloop := readLoop_write Enchant WriteEnchant l
    (fun x hx r => Enchant_write x r (h2 x hx)) rest
  simp only [readEnchantBucket, Varuint32_write _ _ h1, hloop]

/-- ItemEnchantments round trip, preserving trailing bytes. -/
theorem ItemEnchants_write (x : ItemEnchantments) (rest : Bytes) (h : wfItemEnchantments x) :
    ItemEnchants (WriteItemEnchants x ++ rest) = (.ok x, rest) := by
  obtain ⟨slot, b1, b2, b3⟩ := x
  obtain ⟨h1, h2, h3, h4, h5⟩ := h
  simp only [ItemEnchants, WriteItemEnchants, List.append_assoc, readI32_write _ _ h1 h2,
    readEnchantBucket_write _ _ h3, readEnchantBucket_write _ _ h4,
    readEnchantBucket_write _ _ h5]

/-- EnchantmentOption round trip, preserving trailing bytes. -/
theorem EnchantOption_write (x : EnchantmentOption) (rest : Bytes) (h : wfEnchantmentOption x) :
    EnchantOption (WriteEnchantOption x ++ rest) = (.ok x, rest) := by
  obtain ⟨cost, ench, name, rid⟩ := x
  obtain ⟨h1, h2, h3, h4⟩ := h
  simp only [EnchantOption, WriteEnchantOption, List.append_assoc, Varuint32_write _ _ h1,
    ItemEnchants_write _ _ h2, String'_write _ _ h3, Varuint32_write _ _ h4, errJoin, resD]

/-- C1: round-trip identity for the structural codecs present: decoding
(EntityLinks) the bytes of WriteEntityLinks recovers any list of (Go-range)
EntityLink values of length at most LOWER_LIMIT, and EnchantOption applied
to the output of WriteEnchantOption recovers any (Go-range)
EnchantmentOption value; both leave trailing bytes untouched. -/
theorem C1_roundtrip :
    (∀ (l : List EntityLink) (rest : Bytes), (∀ x ∈ l, wfEntityLink x) →
      l.length ≤ lowerLimit → EntityLinks (WriteEntityLinks l ++ rest) = (.ok l, rest)) ∧
    (∀ (x : EnchantmentOption) (rest : Bytes), wfEnchantmentOption x →
      EnchantOption (WriteEnchantOption x ++ rest) = (.ok x, rest)) :=
  ⟨fun l rest hwf hlen => EntityLinks_write l rest hwf hlen,
   fun x rest h => EnchantOption_write x rest h⟩

/-- Witness for C1 at concrete values: the spec's S5 entity link and a
two-enchantment option round-trip. -/
theorem C1_roundtrip_witness :
    EntityLinks (WriteEntityLinks [⟨-1, 2, 1, false, true⟩] ++ []) =
      (.ok [⟨-1, 2, 1, false, true⟩], []) ∧
    EnchantOption (WriteEnchantOption ⟨30, ⟨-5, ([⟨9, 2⟩], [], [⟨1, 1⟩])⟩, [97, 98], 77⟩ ++ []) =
      (.ok ⟨30, ⟨-5, ([⟨9, 2⟩], [], [⟨1, 1⟩])⟩, [97, 98], 77⟩, []) :=
  ⟨C1_roundtrip.1 _ _ (by decide) (by decide), C1_roundtrip.2 _ _ (by decide)⟩

/-- C5 (code bug in the source): when reading the leading network-id varint
fails — here on the empty, exhausted buffer — RecipeIngredient returns
success with the output stack untouched, because item.go line 191 returns
nil instead of the read error; the spec requires a typed error from the
taxonomy. -/
theorem C5_recipe_ingredient_swallows_error (x : ItemStack) :
    RecipeIngredient [] x = (.ok x, []) := rfl

/-- C4 counterexample: the enchantment-bucket decoder enforces no ceiling.
On an input declaring a first-bucket length of 70000 — above both
LOWER_LIMIT and HIGHER_LIMIT — with nothing after the length prefix,
ItemEnchants does not return a LIMIT error: it starts reading instances
and fails with EOF. -/
theorem C4_counterexample :
    ItemEnchants ([0, 0, 0, 0] ++ WriteVaruint32 70000) = (.error .eof, []) := rfl

/-- C4 amended, positive part: the ceilings that are enforced. An entity
link count above LOWER_LIMIT, and an item can-be-placed-on count above
HIGHER_LIMIT, produce a LIMIT error naming the ceiling and consume nothing
beyond the length prefix. (The enchantment buckets, creative items and
tint colours enforce no ceiling; see the counterexample.) -/
theorem C4_limit_guard :
    (∀ (n : Nat) (rest : Bytes), lowerLimit < n → n < 2 ^ 32 →
      EntityLinks (WriteVaruint32 n ++ rest) = (.error (.limitHit lowerLimit "entity link"), rest)) ∧
    (∀ (nid aux c : Int) (rest : Bytes), -2 ^ 31 ≤ nid → nid < 2 ^ 31 → nid ≠ 0 →
      -2 ^ 31 ≤ aux → aux < 2 ^ 31 → (higherLimit : Int) < c → c < 2 ^ 31 →
      Item (WriteVarint32 nid ++ (WriteVarint32 aux ++ (WriteI16 0 ++ (WriteVarint32 c ++ rest)))) =
        (.error (.limitHit higherLimit "item can be placed on"), rest)) := by
  constructor
  · intro n rest h1 h2
    simp only [EntityLinks, Varuint32_write _ _ h2, gt_iff_lt, if_pos h1]
  · intro nid aux c rest ha hb hc hd he hf hg
    have hclo : -2 ^ 31 ≤ c := by
      simp only [higherLimit] at hf
      omega
    have h0 : ¬ (c < 0) := by
      simp only [higherLimit] at hf
      omega
    have hm : readI16 (WriteI16 0 ++ (WriteVarint32 c ++ rest)) =
        (.ok 0, WriteVarint32 c ++ rest) :=
      readI16_write 0 _ (by norm_num) (by norm_num)
    have hlist : readCanList "item can be placed on" (WriteVarint32 c ++ rest) =
        (.error (.limitHit higherLimit "item can be placed on"), rest) := by
      simp only [readCanList, Varint32_write _ _ hclo hg, if_neg h0, gt_iff_lt, if_pos hf]
    have hv1 := Varint32_write nid (WriteVarint32 aux ++ (WriteI16 0 ++ (WriteVarint32 c ++ rest)))
      ha hb
    have hv2 := Varint32_write aux (WriteI16 0 ++ (WriteVarint32 c ++ rest)) hd he
    have hnb : nbtMarkerPath 0 (WriteVarint32 c ++ rest) = (.ok [], WriteVarint32 c ++ rest) := rfl
    have hbody : ItemBody (WriteVarint32 nid ++ (WriteVarint32 aux ++ (WriteI16 0 ++
        (WriteVarint32 c ++ rest)))) =
        (.error (.limitHit higherLimit "item can be placed on"), rest) := by
      rw [ItemBody, rbind_ok _ _ _ _ _ hv1]
      rw [if_neg hc, rbind_ok _ _ _ _ _ hv2]
      rw [rbind_ok _ _ _ _ _ hm]
      rw [rbind_ok _ _ _ _ _ hnb]
      rw [rbind_err _ _ _ _ _ hlist]
    simp only [Item, hbody]

/-- Witness for C4 at concrete inputs: 513 declared entity links, and a
can-be-placed-on count of 65537. -/
theorem C4_limit_guard_witness :
    EntityLinks (WriteVaruint32 513 ++ []) =
      (.error (.limitHit lowerLimit "entity link"), []) ∧
    Item (WriteVarint32 1 ++ (WriteVarint32 0 ++ (WriteI16 0 ++ (WriteVarint32 65537 ++ [])))) =
      (.error (.limitHit higherLimit "item can be placed on"), []) :=
  ⟨C4_limit_guard.1 513 [] (by decide) (by decide),
   C4_limit_guard.2 1 0 65537 [] (by decide) (by decide) (by decide) (by decide) (by decide)
     (by decide) (by decide)⟩

/-- C2 counterexample: an NBT presence marker of 4 — neither 0 nor -1 —
does not make Item fail: the positive marker takes the legacy
length-prefixed path, the next four bytes decode as an empty little-endian
compound, and the stack is returned successfully. -/
theorem C2_counterexample :
    Item legacyMarkerInput = (.ok ⟨1, 0, 0, [], [], []⟩, []) := rfl

/-- C2 amended: only a marker below -1 is a fatal format error; 0 means no
NBT, -1 the count-prefixed compound path, and any positive marker the
legacy length-prefixed path. The theorem proves the error case: after a
nonzero network id and the aux varint, a marker m with m < -1 makes Item
return the invalid-NBT-count format error, consuming nothing past the
marker. -/
theorem C2_nbt_marker (nid aux m : Int) (rest : Bytes)
    (ha : -2 ^ 31 ≤ nid) (hb : nid < 2 ^ 31) (hc : nid ≠ 0)
    (hd : -2 ^ 31 ≤ aux) (he : aux < 2 ^ 31) (hf : -2 ^ 15 ≤ m) (hg : m < -1) :
    Item (WriteVarint32 nid ++ (WriteVarint32 aux ++ (WriteI16 m ++ rest))) =
      (.error (.malformed "invalid NBT count"), rest) := by
  have hv1 := Varint32_write nid (WriteVarint32 aux ++ (WriteI16 m ++ rest)) ha hb
  have hv2 := Varint32_write aux (WriteI16 m ++ rest) hd he
  have hmm := readI16_write m rest hf (by omega)
  have hnb : nbtMarkerPath m rest = (.error (.malformed "invalid NBT count"), rest) := by
    simp only [nbtMarkerPath, if_neg (show ¬ m = 0 by omega),
      if_neg (show ¬ m = -1 by omega), if_pos (show m < 0 by omega)]
  have hbody : ItemBody (WriteVarint32 nid ++ (WriteVarint32 aux ++ (WriteI16 m ++ rest))) =
      (.error (.malformed "invalid NBT count"), rest) := by
    rw [ItemBody, rbind_ok _ _ _ _ _ hv1]
    rw [if_neg hc, rbind_ok _ _ _ _ _ hv2]
    rw [rbind_ok _ _ _ _ _ hmm]
    rw [rbind_err _ _ _ _ _ hnb]
  simp only [Item, hbody]

/-- Witness for C2 amended: network id 1, aux 0, marker -2, one trailing
byte left untouched. -/
theorem C2_nbt_marker_witness :
    Item (WriteVarint32 1 ++ (WriteVarint32 0 ++ (WriteI16 (-2) ++ [9]))) =
      (.error (.malformed "invalid NBT count"), [9]) :=
  C2_nbt_marker 1 0 (-2) [9] (by decide) (by decide) (by decide) (by decide) (by decide)
    (by decide) (by decide)

/-- A bitwise or with a value whose low byte is clear is an addition when
the other operand fits one byte. -/
theorem or_eq_add_of_low (a b : Nat) (ha : a % 256 = 0) (hb : b < 256) : a ||| b = a + b := by
  have h : a = 2 ^ 8 * (a / 2 ^ 8) := by omega
  rw [h]
  exact (Nat.mul_add_lt_is_or (by omega) _).symm

/-- C3 counterexample: for metadata 0 and count -1, the varint value
WriteItem computes (auxOf, the faithful model of item.go line 139) is -1,
while the claim's exact-arithmetic formula gives 255: the Go code
sign-extends Count instead of masking it with 0xFF. -/
theorem C3_counterexample : auxOf 0 (-1) ≠ specAux 0 (-1) := by decide

/-- In the lossless ranges — metadata in [-128, 127], count in [0, 255] —
the packed aux varint equals the spec formula and Item's unpacking inverts
the packing. -/
theorem aux_packing_range (m c : Int) (h1 : -2 ^ 7 ≤ m) (h2 : m < 2 ^ 7)
    (h3 : 0 ≤ c) (h4 : c < 2 ^ 8) :
    auxOf m c = specAux m c ∧ metaFromAux (auxOf m c) = m ∧ countFromAux (auxOf m c) = c := by
  have hlow : bits32 (toInt16 (m * 2 ^ 8)) % 256 = 0 := by
    unfold bits32 toInt16
    omega
  have hb : bits32 c = c.toNat := by
    unfold bits32
    omega
  have hcn : c.toNat < 256 := by omega
  have haux : auxOf m c = m * 2 ^ 8 + c := by
    unfold auxOf
    rw [hb, or_eq_add_of_low _ _ hlow hcn]
    unfold ofBits32 bits32 toInt16
    split <;> omega
  have hspec : specAux m c = m * 2 ^ 8 + c := by
    unfold specAux
    omega
  refine ⟨by rw [haux, hspec], ?_, ?_⟩
  · rw [haux]
    unfold metaFromAux toInt16
    omega
  · rw [haux]
    unfold countFromAux
    omega

/-- C3 amended: the packed varint equals (metadata shl 8) or (count and
0xFF) in exact integer arithmetic — and Item's unpacking inverts it —
whenever metadata lies in [-128, 127] (so the int16 shift cannot wrap) and
count lies in [0, 255] (so sign extension cannot leak into the metadata
byte). -/
theorem C3_aux_packing (m c : Int) (h1 : -2 ^ 7 ≤ m) (h2 : m < 2 ^ 7)
    (h3 : 0 ≤ c) (h4 : c < 2 ^ 8) :
    auxOf m c = specAux m c ∧ metaFromAux (auxOf m c) = m ∧ countFromAux (auxOf m c) = c :=
  aux_packing_range m c h1 h2 h3 h4

/-- Witness for C3 amended at metadata -3 and count 200. -/
theorem C3_aux_packing_witness :
    auxOf (-3) 200 = specAux (-3) 200 ∧ metaFromAux (auxOf (-3) 200) = -3 ∧
      countFromAux (auxOf (-3) 200) = 200 :=
  C3_aux_packing (-3) 200 (by decide) (by decide) (by decide) (by decide)

/-- The int32 conversion is the identity on small nonnegative values. -/
theorem toInt32_small (n : Nat) (h : n ≤ 65536) : toInt32 n = n := by
  unfold toInt32
  omega

/-- The 32 two's-complement bits of any value fit 32 bits. -/
theorem bits32_lt (x : Int) : bits32 x < 2 ^ 32 := by
  unfold bits32
  omega

/-- ofBits32 of a 32-bit value lies in the int32 range. -/
theorem ofBits32_range (n : Nat) (hn : n < 2 ^ 32) :
    -2 ^ 31 ≤ ofBits32 n ∧ ofBits32 n < 2 ^ 31 := by
  unfold ofBits32
  constructor <;> split <;> omega

/-- The packed aux value lies in the int32 range. -/
theorem auxOf_range (m c : Int) : -2 ^ 31 ≤ auxOf m c ∧ auxOf m c < 2 ^ 31 := by
  unfold auxOf
  exact ofBits32_range _ (Nat.or_lt_two_pow (bits32_lt _) (bits32_lt _))

/-- Round trip of one of Item's bounded string lists, preserving trailing
bytes, for lists within the ceiling whose strings fit their length
prefix. -/
theorem readCanList_write (t : String) (l : List Bytes) (rest : Bytes)
    (hlen : l.length ≤ higherLimit) (hstr : ∀ b ∈ l, b.length < 2 ^ 32) :
    readCanList t (WriteVarint32 (toInt32 l.length) ++ ((l.map WriteString).flatten ++ rest)) =
      (.ok l, rest) := by
  have hlen65 : l.length ≤ 65536 := hlen
  have hsmall : toInt32 l.length = l.length := toInt32_small _ hlen65
  have hv : Varint32 (WriteVarint32 ((l.length : Int)) ++ ((l.map WriteString).flatten ++ rest)) =
      (.ok ((l.length : Int)), (l.map WriteString).flatten ++ rest) :=
    Varint32_write _ _ (by omega) (by omega)
  have hneg : ¬ ((l.length : Int) < 0) := by omega
  have hover : ¬ ((l.length : Int) > (higherLimit : Int)) := by
    have h65 : (higherLimit : Int) = 65536 := rfl
    omega
  have hloop := readLoop_write String' WriteString l
    (fun b hb r => String'_write b r (hstr b hb)) rest
  rw [hsmall]
  simp only [readCanList, hv, if_neg hneg, gt_iff_lt, if_neg hover, Int.toNat_natCast, hloop]

/-- ItemBody round trip on the canonical no-NBT field sequence, preserving
trailing bytes. -/
theorem ItemBody_write (x : ItemStack) (h : wfStack x) (rest : Bytes) :
    ItemBody (WriteVarint32 x.NetworkID ++ (WriteVarint32 (auxOf x.MetadataValue x.Count) ++
      (WriteI16 0 ++ (WriteVarint32 (toInt32 x.CanBePlacedOn.length) ++
        ((x.CanBePlacedOn.map WriteString).flatten ++ (WriteVarint32 (toInt32 x.CanBreak.length) ++
          ((x.CanBreak.map WriteString).flatten ++ rest))))))) = (.ok x, rest) := by
  obtain ⟨nid, m, c, nbt, cp, cb⟩ := x
  obtain ⟨h1, h2, h3, h4, h5, h6, h7, h8, h9, h10, h11, h12⟩ := h
  dsimp only at h1 h2 h3 h4 h5 h6 h7 h8 h9 h10 h11 h12 ⊢
  subst h8
  have hpack := aux_packing_range m c h4 h5 h6 h7
  have haux := auxOf_range m c
  have hv1 := Varint32_write nid (WriteVarint32 (auxOf m c) ++
    (WriteI16 0 ++ (WriteVarint32 (toInt32 cp.length) ++ ((cp.map WriteString).flatten ++
      (WriteVarint32 (toInt32 cb.length) ++ ((cb.map WriteString).flatten ++ rest)))))) h1 h2
  have hv2 := Varint32_write (auxOf m c) (WriteI16 0 ++ (WriteVarint32 (toInt32 cp.length) ++
    ((cp.map WriteString).flatten ++ (WriteVarint32 (toInt32 cb.length) ++
      ((cb.map WriteString).flatten ++ rest))))) haux.1 haux.2
  have hm : readI16 (WriteI16 0 ++ (WriteVarint32 (toInt32 cp.length) ++
      ((cp.map WriteString).flatten ++ (WriteVarint32 (toInt32 cb.length) ++
        ((cb.map WriteString).flatten ++ rest))))) =
      (.ok 0, WriteVarint32 (toInt32 cp.length) ++ ((cp.map WriteString).flatten ++
        (WriteVarint32 (toInt32 cb.length) ++ ((cb.map WriteString).flatten ++ rest)))) :=
    readI16_write 0 _ (by norm_num) (by norm_num)
  have hnb : nbtMarkerPath 0 (WriteVarint32 (toInt32 cp.length) ++ ((cp.map WriteString).flatten ++
      (WriteVarint32 (toInt32 cb.length) ++ ((cb.map WriteString).flatten ++ rest)))) =
      (.ok [], WriteVarint32 (toInt32 cp.length) ++ ((cp.map WriteString).flatten ++
        (WriteVarint32 (toInt32 cb.length) ++ ((cb.map WriteString).flatten ++ rest)))) := rfl
  have hcp := readCanList_write "item can be placed on" cp (WriteVarint32 (toInt32 cb.length) ++
    ((cb.map WriteString).flatten ++ rest)) h9 h10
  have hcb := readCanList_write "item can break" cb rest h11 h12
  rw [ItemBody, rbind_ok _ _ _ _ _ hv1]
  rw [if_neg h3, rbind_ok _ _ _ _ _ hv2]
  rw [rbind_ok _ _ _ _ _ hm]
  rw [rbind_ok _ _ _ _ _ hnb]
  rw [rbind_ok _ _ _ _ _ hcp]
  rw [rbind_ok _ _ _ _ _ hcb]
  rw [hpack.2.1, hpack.2.2]
  rfl

/-- Item round trip for canonical stacks, preserving trailing bytes: the
decoded stack equals the written one, and for the shield id the zero
blocking tick the writer appends is consumed. -/
theorem Item_write (x : ItemStack) (h : wfStack x) (rest : Bytes) :
    Item (WriteItem x ++ rest) = (.ok x, rest) := by
  have h3 : x.NetworkID ≠ 0 := h.2.2.1
  have h8 : x.NBTData = [] := h.2.2.2.2.2.2.2.1
  by_cases h513 : x.NetworkID = 513
  · have hbody := ItemBody_write x h (WriteVarint64 0 ++ rest)
    have hv64 := Varint64_write 0 rest (by norm_num) (by norm_num)
    have hshape : WriteItem x ++ rest = WriteVarint32 x.NetworkID ++
        (WriteVarint32 (auxOf x.MetadataValue x.Count) ++ (WriteI16 0 ++
          (WriteVarint32 (toInt32 x.CanBePlacedOn.length) ++
            ((x.CanBePlacedOn.map WriteString).flatten ++
              (WriteVarint32 (toInt32 x.CanBreak.length) ++
                ((x.CanBreak.map WriteString).flatten ++ (WriteVarint64 0 ++ rest))))))) := by
      simp [WriteItem, if_neg h3, h8, if_pos h513, List.append_assoc]
    rw [hshape, Item, hbody]
    simp only [if_pos h513, hv64]
  · have hbody := ItemBody_write x h rest
    have hshape : WriteItem x ++ rest = WriteVarint32 x.NetworkID ++
        (WriteVarint32 (auxOf x.MetadataValue x.Count) ++ (WriteI16 0 ++
          (WriteVarint32 (toInt32 x.CanBePlacedOn.length) ++
            ((x.CanBePlacedOn.map WriteString).flatten ++
              (WriteVarint32 (toInt32 x.CanBreak.length) ++
                ((x.CanBreak.map WriteString).flatten ++ rest)))))) := by
      simp [WriteItem, if_neg h3, h8, if_neg h513, List.append_assoc]
    rw [hshape, Item, hbody]
    simp only [if_neg h513]

/-- C7 counterexample: a decodable byte vector that does not re-encode to
itself outside the NBT freedoms: shieldTickInput is a shield stack whose
trailing blocking tick is the nonzero varint 02; Item decodes it
successfully, but WriteItem always writes a zero blocking tick, so the
re-encoding differs from the input in its final byte. -/
theorem C7_counterexample :
    Item shieldTickInput = (.ok shieldStack, []) ∧ WriteItem shieldStack ≠ shieldTickInput :=
  ⟨rfl, by decide⟩

/-- C7 amended: wire stability holds on the canonical encodings — the image
of WriteItem over well-formed no-NBT stacks (shield blocking tick zero):
each such byte vector decodes exactly to the stack whose re-encoding it
is. It fails for non-canonical decodable inputs such as a shield stack
with a nonzero trailing blocking tick. -/
theorem C7_wire_stability (x : ItemStack) (h : wfStack x) :
    Item (WriteItem x) = (.ok x, []) := by
  have := Item_write x h []
  simpa using this

/-- Witness for C7 amended at the concrete shield stack. -/
theorem C7_wire_stability_witness :
    Item (WriteItem shieldStack) = (.ok shieldStack, []) :=
  C7_wire_stability shieldStack
    ⟨by decide, by decide, by decide, by decide, by decide, by decide, by decide, rfl,
     by decide, by decide, by decide, by decide⟩

/-- C8: the empty sentinel. WriteItem of the zero stack emits exactly the
byte 00, and Item on any input starting with byte 00 consumes exactly that
byte and returns the stack with metadata and count zero, no NBT entries
and empty block lists. -/
theorem C8_empty_sentinel :
    WriteItem { NetworkID := 0, MetadataValue := 0, Count := 0, NBTData := [],
                CanBePlacedOn := [], CanBreak := [] } = [0] ∧
    ∀ rest : Bytes, Item (0 :: rest) =
      (.ok { NetworkID := 0, MetadataValue := 0, Count := 0, NBTData := [],
             CanBePlacedOn := [], CanBreak := [] }, rest) :=
  ⟨rfl, fun _ => rfl⟩

/-- C9: the shield sentinel. Whenever Item succeeds, a decoded network id
of 513 means exactly one trailing varint64 was consumed after the
can-break list (the cursor after ItemBody advances by one varint64 read),
and any other network id means the cursor is exactly where ItemBody left
it. -/
theorem C9_shield_sentinel (s : Bytes) (v : ItemStack) (rest : Bytes)
    (h : Item s = (.ok v, rest)) :
    (v.NetworkID = 513 →
      ∃ mid tick, ItemBody s = (.ok v, mid) ∧ Varint64 mid = (.ok tick, rest)) ∧
    (v.NetworkID ≠ 513 → ItemBody s = (.ok v, rest)) := by
  rw [Item] at h
  rcases hbody : ItemBody s with ⟨rb, mid⟩
  rw [hbody] at h
  cases rb with
  | error e => simp at h
  | ok x =>
    dsimp only at h
    by_cases h513 : x.NetworkID = 513
    · rw [if_pos h513] at h
      rcases hv : Varint64 mid with ⟨rv, s2⟩
      rw [hv] at h
      cases rv with
      | error e => simp at h
      | ok tick =>
        dsimp only at h
        simp only [Prod.mk.injEq, Except.ok.injEq] at h
        obtain ⟨hxv, hsr⟩ := h
        subst hxv
        subst hsr
        constructor
        · intro _
          exact ⟨mid, tick, rfl, hv⟩
        · intro hne
          exact absurd h513 hne
    · rw [if_neg h513] at h
      simp only [Prod.mk.injEq, Except.ok.injEq] at h
      obtain ⟨hxv, hsr⟩ := h
      subst hxv
      subst hsr
      constructor
      · intro h5
        exact absurd h5 h513
      · intro _
        rfl

/-- Witness for C9 at the concrete shield input: Item succeeds and the
trailing varint64 (the blocking tick 1) was consumed from the point where
ItemBody stopped. -/
theorem C9_shield_sentinel_witness :
    Item shieldTickInput = (.ok shieldStack, []) ∧
    (∃ mid tick, ItemBody shieldTickInput = (.ok shieldStack, mid) ∧
      Varint64 mid = (.ok tick, [])) :=
  ⟨rfl, (C9_shield_sentinel shieldTickInput shieldStack [] rfl).1 rfl⟩

/-- A passing animation check yields the size equation, in uint32
arithmetic, for every animation in the list. -/
theorem validAnimations_ok (l : List SkinAnimation) (h : validAnimations l = .ok ()) :
    ∀ a ∈ l, (a.ImageHeight * a.ImageWidth * 4) % 2 ^ 32 = a.ImageData.length % 2 ^ 32 := by
  induction l with
  | nil => intro a ha; cases ha
  | cons b t ih =>
    unfold validAnimations at h
    by_cases hb : (b.ImageHeight * b.ImageWidth * 4) % 2 ^ 32 = b.ImageData.length % 2 ^ 32
    · rw [if_neg (by exact fun hne => hne hb)] at h
      intro a ha
      rcases List.mem_cons.mp ha with rfl | hat
      · exact hb
      · exact ih h a hat
    · rw [if_pos hb] at h
      simp at h

/-- A passing validate yields the three size equations of the skin, in
uint32 arithmetic. -/
theorem validate_ok (x : Skin) (h : x.validate = .ok ()) :
    (x.SkinImageHeight * x.SkinImageWidth * 4) % 2 ^ 32 = x.SkinData.length % 2 ^ 32 ∧
    (x.CapeImageHeight * x.CapeImageWidth * 4) % 2 ^ 32 = x.CapeData.length % 2 ^ 32 ∧
    ∀ a ∈ x.Animations,
      (a.ImageHeight * a.ImageWidth * 4) % 2 ^ 32 = a.ImageData.length % 2 ^ 32 := by
  unfold Skin.validate at h
  by_cases h1 : (x.SkinImageHeight * x.SkinImageWidth * 4) % 2 ^ 32 = x.SkinData.length % 2 ^ 32
  · rw [if_neg (by exact fun hne => hne h1)] at h
    by_cases h2 : (x.CapeImageHeight * x.CapeImageWidth * 4) % 2 ^ 32 = x.CapeData.length % 2 ^ 32
    · rw [if_neg (by exact fun hne => hne h2)] at h
      exact ⟨h1, h2, validAnimations_ok _ h⟩
    · rw [if_pos h2] at h
      simp at h
  · rw [if_pos h1] at h
    simp at h

/-- A successful SerialisedSkin ends in a passing validate of the returned
skin. -/
theorem SerialisedSkin_ok (s : Bytes) (x0 x : Skin) (rest : Bytes)
    (h : SerialisedSkin s x0 = (.ok (), x, rest)) : x.validate = .ok () := by
  unfold SerialisedSkin at h
  dsimp only at h
  repeat' split at h
  all_goals simp at h
  obtain ⟨hx, -⟩ := h
  subst hx
  assumption

/-- C6 counterexample: the size check is a uint32 comparison, not exact
arithmetic. The 41-byte overflowSkinInput declares a 2 ^ 30 by 1 skin with
an empty pixel buffer, so 4 * width * height = 2 ^ 32 wraps to 0 and
matches the empty buffer; SerialisedSkin returns the skin successfully
although its exact pixel-count equation is violated. -/
theorem C6_counterexample :
    SerialisedSkin overflowSkinInput skinZero = (.ok (), overflowSkin, []) ∧
    ¬ (overflowSkin.SkinData.length =
        4 * overflowSkin.SkinImageWidth * overflowSkin.SkinImageHeight) :=
  ⟨rfl, by decide⟩

/-- C6 amended: every Skin returned successfully by SerialisedSkin
satisfies the three pixel-buffer size equations modulo 2 ^ 32 — the
arithmetic Skin.validate actually performs on uint32 values — for the
skin, the cape, and every animation; a violation surfaces as the
recoverable invariant error validate returns. -/
theorem C6_skin_size_mod (s : Bytes) (x0 x : Skin) (rest : Bytes)
    (h : SerialisedSkin s x0 = (.ok (), x, rest)) :
    (x.SkinImageHeight * x.SkinImageWidth * 4) % 2 ^ 32 = x.SkinData.length % 2 ^ 32 ∧
    (x.CapeImageHeight * x.CapeImageWidth * 4) % 2 ^ 32 = x.CapeData.length % 2 ^ 32 ∧
    ∀ a ∈ x.Animations,
      (a.ImageHeight * a.ImageWidth * 4) % 2 ^ 32 = a.ImageData.length % 2 ^ 32 :=
  validate_ok x (SerialisedSkin_ok s x0 x rest h)

/-- Witness for C6 amended at the overflow skin input. -/
theorem C6_skin_size_mod_witness :
    (overflowSkin.SkinImageHeight * overflowSkin.SkinImageWidth * 4) % 2 ^ 32 =
      overflowSkin.SkinData.length % 2 ^ 32 ∧
    (overflowSkin.CapeImageHeight * overflowSkin.CapeImageWidth * 4) % 2 ^ 32 =
      overflowSkin.CapeData.length % 2 ^ 32 ∧
    ∀ a ∈ overflowSkin.Animations,
      (a.ImageHeight * a.ImageWidth * 4) % 2 ^ 32 = a.ImageData.length % 2 ^ 32 :=
  C6_skin_size_mod overflowSkinInput skinZero overflowSkin [] rfl

/-- C10: the wire codec ignores the Trusted field. Two skins differing only
in Trusted write identical bytes (WriteSerialisedSkin never reads the
field), and SerialisedSkin never assigns it: on every decode, successful
or not, the returned skin keeps the prior Trusted value of the output
argument. -/
theorem C10_trusted_ignored :
    (∀ (x : Skin) (t : Bool),
      WriteSerialisedSkin { x with Trusted := t } = WriteSerialisedSkin x) ∧
    (∀ (s : Bytes) (x : Skin), (SerialisedSkin s x).2.1.Trusted = x.Trusted) := by
  constructor
  · intro x t
    rfl
  · intro s x
    unfold SerialisedSkin
    dsimp only
    repeat' split
    all_goals rfl
